import Mathlib

/-!
Shallow embedding of the Iroha specific query executor
(`src/irohad/ametsuchi/impl/postgres_specific_query_executor.hpp`).

The repository provides only the interface header; the executable bodies of
the member functions live in a translation unit that is not part of the
repository snapshot.  Where a definition below embeds behaviour that the
header alone does not determine, its doc comment starts with
`Modelled from the spec:` and names the missing code; everything else is
translated directly from the header.
-/

set_option maxHeartbeats 1000000

namespace IrohaQuery

/-- Account identifiers (`types::AccountIdType` is a string type). -/
abbrev AccountId := String

/-- Asset identifiers (`types::AssetIdType` is a string type). -/
abbrev AssetId := String

/-- Role identifiers (`types::RoleIdType` is a string type). -/
abbrev RoleId := String

/-- Transaction / query correlation hashes (`shared_model::crypto::Hash`),
modelled as natural numbers. -/
abbrev Hash := Nat

/-- Modelled from the spec: the permission tags
(`shared_model::interface::permissions::Role`); the enumeration itself is
declared outside this repository snapshot.  The OWN/ANY pairs follow the
self/any duality of spec section 4.2. -/
inductive Perm
  | getMyAccount
  | getAllAccounts
  | getMyAccTxs
  | getAllAccTxs
  | getMyAccAst
  | getAllAccAst
  | getMyAccAstTxs
  | getAllAccAstTxs
  | getMyAccDetail
  | getAllAccDetail
  | getMySignatories
  | getAllSignatories
  | getMyTxs
  | getAllTxs
  | getRoles
  | getBlocks
  | readAssets
  | getMyPendingTxs
  | getPeers
deriving DecidableEq

/-- Modelled from the spec: the error taxonomy of spec section 7
(`QueryResponseFactory::ErrorQueryType` plus the engine-misuse case); the
enumeration is declared outside this repository snapshot. -/
inductive ErrorType
  | notEnoughPermissions
  | noAccount
  | noAsset
  | noRoles
  | noSignatories
  | noBlock
  | noPeers
  | invalidPagination
  | statefulFailed
  | engineMisuse
deriving DecidableEq

/-- Modelled from the spec: every error carries a stable numeric code
(spec section 7, "every error carries a stable error code"). -/
def ErrorType.code : ErrorType → Nat
  | .engineMisuse => 0
  | .statefulFailed => 1
  | .notEnoughPermissions => 2
  | .invalidPagination => 4
  | .noAccount => 5
  | .noAsset => 6
  | .noRoles => 7
  | .noSignatories => 8
  | .noBlock => 9
  | .noPeers => 10

/-- Typed error response: error-type tag, human-readable message and numeric
error code (`ErrorQueryResponse` with `ErrorMessageType`/`ErrorCodeType`). -/
structure ErrorResponse where
  errorType : ErrorType
  message : String
  code : Nat
deriving DecidableEq

/-- Build the typed error response with the stable code of its type
(`logAndReturnErrorResponse` without the logging side effect). -/
def mkError (t : ErrorType) (msg : String) : ErrorResponse :=
  ⟨t, msg, t.code⟩

/-- A committed transaction as seen by the relational transaction index:
hash, creator account, block height, intra-block position, involved assets. -/
structure Tx where
  hash : Hash
  creator : AccountId
  height : Nat
  pos : Nat
  assets : List AssetId
deriving DecidableEq

/-- An account row of the relational index. -/
structure Account where
  id : AccountId
  roles : List RoleId
  detail : String
deriving DecidableEq

/-- A role with the permission set it grants. -/
structure RoleDef where
  id : RoleId
  perms : List Perm
deriving DecidableEq

/-- An asset row of the relational index. -/
structure Asset where
  id : AssetId
  precision : Nat
deriving DecidableEq

/-- A block of the block store (`KeyValueStorage`), addressed by height. -/
structure Block where
  height : Nat
  txs : List Tx
deriving DecidableEq

/-- The read-only state visible to the executor: relational index tables,
the block store, the pending pool, and a failure-injection flag standing for
an underlying relational/storage failure (an `soci` exception). -/
structure Ledger where
  accounts : List Account
  roleDefs : List RoleDef
  assets : List Asset
  balances : List (AccountId × AssetId × Nat)
  txs : List Tx
  blocks : List Block
  signatories : List (AccountId × String)
  peers : List String
  pendingTxs : List Tx
  broken : Bool
deriving DecidableEq

/-- A stringly-addressed table of the relational index, as addressed by
`existsInDb(table_name, key_name, value_name, value)`: rows are lists of
(column name, value) pairs. -/
structure Table where
  name : String
  rows : List (List (String × String))
deriving DecidableEq

/-- A stringly-addressed database for `existsInDb`, with a failure-injection
flag standing for a query exception. -/
structure Db where
  tables : List Table
  broken : Bool
deriving DecidableEq

/-- Read one column of a row by column name. -/
def getCol (row : List (String × String)) (col : String) : Option String :=
  (row.find? (fun p => p.1 == col)).map (fun p => p.2)

/-- Check if an entry with such key exists in the database
(`existsInDb<ReturnValueType>(table_name, key_name, value_name, value)`).
Per the header it returns `bool` — true if an entry with such value of the
key attribute exists, false otherwise — and throws if the check query
finishes with an exception (modelled by the `Except` error case). -/
def existsInDb (db : Db) (table_name key_name value_name value : String) :
    Except String Bool :=
  if db.broken then .error "query exception" else
    .ok (match db.tables.find? (fun t => t.name == table_name) with
      | none => false
      | some t => t.rows.any (fun r => getCol r key_name == some value))

/-- Modelled from the spec: the spec's section 4.5 contract
"`existsInDb(table, key_column, value_column, key_value) -> Option<value>` —
returns the associated value only if the keyed row exists".  This definition
follows the spec's words and is compared against `existsInDb`, which is
translated from the header. -/
def dbLookupValue (db : Db) (table_name key_name value_name value : String) :
    Option String :=
  match db.tables.find? (fun t => t.name == table_name) with
  | none => none
  | some t =>
      (t.rows.find? (fun r => getCol r key_name == some value)).bind
        (fun r => getCol r value_name)

/-- The stringly-addressed view of the relational index used by the
existence checks that back the pagination fallback. -/
def Ledger.db (l : Ledger) : Db :=
  ⟨[⟨"account", l.accounts.map (fun a => [("account_id", a.id)])⟩,
    ⟨"asset", l.assets.map (fun a => [("asset_id", a.id)])⟩],
   false⟩

/-- Does the target account exist (existence check backing the pagination
fallback, via `existsInDb` on the account table)? -/
def Ledger.hasAccount (l : Ledger) (account_id : AccountId) : Bool :=
  (existsInDb l.db "account" "account_id" "quorum" account_id).toOption.getD false

/-- Does the target asset exist (existence check backing the pagination
fallback, via `existsInDb` on the asset table)? -/
def Ledger.hasAsset (l : Ledger) (asset_id : AssetId) : Bool :=
  (existsInDb l.db "asset" "asset_id" "precision" asset_id).toOption.getD false

/-- Roles of an account (account → roles join). -/
def Ledger.accountRoles (l : Ledger) (account_id : AccountId) : List RoleId :=
  match l.accounts.find? (fun acc => acc.id == account_id) with
  | some acc => acc.roles
  | none => []

/-- Modelled from the spec: `hasAccountRolePermission(permission, account_id)`
— true iff the account holds a role granting that permission (account →
roles → permissions join); the body is not in the repository snapshot. -/
def hasAccountRolePermission (l : Ledger) (permission : Perm)
    (account_id : AccountId) : Bool :=
  (l.accountRoles account_id).any (fun r =>
    match l.roleDefs.find? (fun rd => rd.id == r) with
    | some rd => rd.perms.contains permission
    | none => false)

/-- Modelled from the spec: the composite check of spec section 4.2,
"has ANY-scope permission" OR ("target account equals caller" AND
"has OWN-scope permission"). -/
def hasAnyOrOwn (l : Ledger) (creator target : AccountId)
    (anyPerm ownPerm : Perm) : Bool :=
  hasAccountRolePermission l anyPerm creator ||
    (target == creator && hasAccountRolePermission l ownPerm creator)

/-- Deterministic transaction ordering of the pagination scan: block height
ascending, then intra-block position ascending. -/
def txLe (a b : Tx) : Prop :=
  a.height < b.height ∨ (a.height = b.height ∧ a.pos ≤ b.pos)

instance : DecidableRel txLe := fun a b => by
  unfold txLe; exact inferInstance

instance : IsTotal Tx txLe := ⟨by
  intro a b; unfold txLe; omega⟩

instance : IsTrans Tx txLe := ⟨by
  intro a b c hab hbc; unfold txLe at hab hbc ⊢; omega⟩

/-- Sort the candidate transaction set into the deterministic scan order
(the ORDER BY of the related-transactions query). -/
def sortTxs (l : List Tx) : List Tx :=
  List.insertionSort txLe l

/-- Drop candidates up to and including the first transaction with the given
hash; `none` when the hash does not resolve to any transaction in the list.
Realizes "the scan begins strictly after the transaction identified by the
cursor hash". -/
def dropUntilAfter (l : List Tx) (h : Hash) : Option (List Tx) :=
  match l with
  | [] => none
  | t :: rest => if t.hash == h then some rest else dropUntilAfter rest h

/-- Result of the pagination engine: a page with an optional next-page
cursor, or a typed error. -/
inductive TxPageResult
  | page (txs : List Tx) (next_tx_hash : Option Hash)
  | err (e : ErrorResponse)
deriving DecidableEq

/-- Fallback check result (`QueryFallbackCheckResult` of the header): the
default constructor leaves `contains_error` false, code 0 and an empty
message; the error constructor sets `contains_error` with a code and
message. -/
structure QueryFallbackCheckResult where
  contains_error : Bool := false
  error_code : Nat := 0
  error_message : String := ""
deriving DecidableEq

/-- The error-carrying constructor of `QueryFallbackCheckResult`. -/
def QueryFallbackCheckResult.withError (code : Nat) (msg : String) :
    QueryFallbackCheckResult :=
  ⟨true, code, msg⟩

/-- Modelled from the spec: the error type attached to an error produced by
a fallback checker, recovered from its stable code ("no such account" /
"no such asset", otherwise a generic stateful failure); the response
assembly code is not in the repository snapshot. -/
def errorTypeOfCode (c : Nat) : ErrorType :=
  if c = 5 then .noAccount else if c = 6 then .noAsset else .statefulFailed

/-- Cut one page out of the remaining candidates: at most `pageSize`
transactions; if more remain past the page, the next-page cursor is the last
returned transaction's hash; if the candidate set is exhausted no next
cursor is set. -/
def mkPage (rest : List Tx) (pageSize : Nat) : TxPageResult :=
  .page (rest.take pageSize)
    (if pageSize < rest.length then (rest.take pageSize).getLast?.map Tx.hash
     else none)

/-- Error message of the invalid-pagination error. -/
def invalidPaginationMsg : String := "invalid pagination hash"

/-- Modelled from the spec: `executeTransactionsQuery` (spec section 4.4);
the template body is not in the repository snapshot.  Candidates are scanned
in deterministic order; a supplied cursor hash must resolve in the candidate
set (else the invalid-pagination error); at most `pageSize` transactions are
returned; the fallback checker runs only when no cursor was supplied and
zero transactions were found. -/
def executeTransactionsQuery (candidates : List Tx) (firstTxHash : Option Hash)
    (pageSize : Nat) (qry_checker : QueryFallbackCheckResult) : TxPageResult :=
  match firstTxHash with
  | some h =>
      match dropUntilAfter (sortTxs candidates) h with
      | none => .err (mkError .invalidPagination invalidPaginationMsg)
      | some rest => mkPage rest pageSize
  | none =>
      if ((sortTxs candidates).take pageSize).isEmpty
          && qry_checker.contains_error then
        .err ⟨errorTypeOfCode qry_checker.error_code,
              qry_checker.error_message, qry_checker.error_code⟩
      else mkPage (sortTxs candidates) pageSize

/-- The candidate segment the scan starts at: the whole sorted candidate set
when no cursor is supplied, the part strictly after the cursor transaction
otherwise (or `none` when the cursor hash does not resolve). -/
def startSegment (candidates : List Tx) (firstTxHash : Option Hash) :
    Option (List Tx) :=
  match firstTxHash with
  | none => some (sortTxs candidates)
  | some h => dropUntilAfter (sortTxs candidates) h

/-- Transaction pagination metadata: requested page size and the optional
starting (exclusive) cursor hash. -/
structure TxPaginationMeta where
  pageSize : Nat
  firstTxHash : Option Hash
deriving DecidableEq

/-- The closed, tagged union of query kinds, one constructor per
forward-declared query class and per `operator()` overload of the header. -/
inductive Query
  | getAccount (account_id : AccountId)
  | getBlock (height : Nat)
  | getSignatories (account_id : AccountId)
  | getAccountTransactions (account_id : AccountId) (pagination : TxPaginationMeta)
  | getTransactions (tx_hashes : List Hash) (pagination : TxPaginationMeta)
  | getAccountAssetTransactions (account_id : AccountId) (asset_id : AssetId)
      (pagination : TxPaginationMeta)
  | getAccountAssets (account_id : AccountId)
  | getAccountDetail (account_id : AccountId)
  | getRoles
  | getRolePermissions (role_id : RoleId)
  | getAssetInfo (asset_id : AssetId)
  | getPendingTransactions
  | getPeers
deriving DecidableEq

/-- One tag per query variant, used to count and enumerate the closed set. -/
inductive QueryTag
  | accountTag
  | blockTag
  | signatoriesTag
  | accountTransactionsTag
  | transactionsTag
  | accountAssetTransactionsTag
  | accountAssetsTag
  | accountDetailTag
  | rolesTag
  | rolePermissionsTag
  | assetInfoTag
  | pendingTransactionsTag
  | peersTag
deriving DecidableEq

/-- All query-variant tags, in declaration order of the header. -/
def QueryTag.all : List QueryTag :=
  [.accountTag, .blockTag, .signatoriesTag, .accountTransactionsTag,
   .transactionsTag, .accountAssetTransactionsTag, .accountAssetsTag,
   .accountDetailTag, .rolesTag, .rolePermissionsTag, .assetInfoTag,
   .pendingTransactionsTag, .peersTag]

/-- The tag of a query value. -/
def Query.tag : Query → QueryTag
  | .getAccount _ => .accountTag
  | .getBlock _ => .blockTag
  | .getSignatories _ => .signatoriesTag
  | .getAccountTransactions _ _ => .accountTransactionsTag
  | .getTransactions _ _ => .transactionsTag
  | .getAccountAssetTransactions _ _ _ => .accountAssetTransactionsTag
  | .getAccountAssets _ => .accountAssetsTag
  | .getAccountDetail _ => .accountDetailTag
  | .getRoles => .rolesTag
  | .getRolePermissions _ => .rolePermissionsTag
  | .getAssetInfo _ => .assetInfoTag
  | .getPendingTransactions => .pendingTransactionsTag
  | .getPeers => .peersTag

/-- One sample query per variant, witnessing that every tag is realized. -/
def Query.samples : List Query :=
  [.getAccount "a", .getBlock 0, .getSignatories "a",
   .getAccountTransactions "a" ⟨0, none⟩, .getTransactions [] ⟨0, none⟩,
   .getAccountAssetTransactions "a" "b" ⟨0, none⟩, .getAccountAssets "a",
   .getAccountDetail "a", .getRoles, .getRolePermissions "r",
   .getAssetInfo "b", .getPendingTransactions, .getPeers]

/-- Typed success responses, one variant per query kind. -/
inductive SuccessResponse
  | account (acc : Account) (roles : List RoleId)
  | block (b : Block)
  | signatories (keys : List String)
  | transactionsPage (txs : List Tx) (next_tx_hash : Option Hash)
  | accountAssets (balances : List (AssetId × Nat))
  | accountDetail (detail : String)
  | roles (role_ids : List RoleId)
  | rolePermissions (perms : List Perm)
  | assetInfo (asset : Asset)
  | pendingTransactions (txs : List Tx)
  | peers (peer_list : List String)
deriving DecidableEq

/-- The outcome of `execute` (`QueryExecutorResult`): exactly one of a typed
success response or a typed error response, each echoing the correlation
hash of the query invocation. -/
inductive QueryResponse
  | success (r : SuccessResponse) (query_hash : Hash)
  | error (e : ErrorResponse) (query_hash : Hash)
deriving DecidableEq

/-- Is the response a success response? -/
def QueryResponse.isSuccess : QueryResponse → Bool
  | .success _ _ => true
  | .error _ _ => false

/-- Is the response an error response? -/
def QueryResponse.isError : QueryResponse → Bool
  | .success _ _ => false
  | .error _ _ => true

/-- Is the response a permission-denial error? -/
def QueryResponse.isPermissionDenied : QueryResponse → Bool
  | .error e _ => e.errorType == .notEnoughPermissions
  | .success _ _ => false

/-- Error messages of the "does not exist" errors. -/
def noAccountMsg : String := "no account with such id found"

/-- Error message of the no-such-asset error. -/
def noAssetMsg : String := "no asset with such id found"

/-- Error message of the no-roles error. -/
def noRolesMsg : String := "no roles found"

/-- Error message of the no-signatories error. -/
def noSignatoriesMsg : String := "no signatories found"

/-- Error message of the no-block error. -/
def noBlockMsg : String := "no block with such height found"

/-- Error message of the no-peers error. -/
def noPeersMsg : String := "no peers found"

/-- Error message of the generic stateful failure. -/
def statefulFailedMsg : String := "stateful query execution failed"

/-- Error message of the engine-misuse error. -/
def engineMisuseMsg : String := "creator id or query hash is not set"

/-- Per-kind permission-denial message (distinct error bodies per kind). -/
def noPermMsg (what : String) : String := "no permission to " ++ what

/-- Candidate transaction set of `GetAccountTransactions`: transactions
created by the target account. -/
def accTxsCandidates (l : Ledger) (account_id : AccountId) : List Tx :=
  l.txs.filter (fun t => t.creator == account_id)

/-- Candidate transaction set of `GetAccountAssetTransactions`: transactions
created by the target account and involving the target asset. -/
def accAstTxsCandidates (l : Ledger) (account_id : AccountId)
    (asset_id : AssetId) : List Tx :=
  l.txs.filter (fun t => t.creator == account_id && t.assets.contains asset_id)

/-- Fallback checker of `GetAccountTransactions`: distinguishes a
non-existent target account (error, code 5) from a legitimately empty
history. -/
def accountTxsChecker (l : Ledger) (account_id : AccountId) :
    QueryFallbackCheckResult :=
  if l.hasAccount account_id then {}
  else .withError 5 noAccountMsg

/-- Fallback checker of `GetAccountAssetTransactions`: a non-existent
account (code 5), then a non-existent asset (code 6), else no error. -/
def accountAssetTxsChecker (l : Ledger) (account_id : AccountId)
    (asset_id : AssetId) : QueryFallbackCheckResult :=
  if !(l.hasAccount account_id) then .withError 5 noAccountMsg
  else if !(l.hasAsset asset_id) then .withError 6 noAssetMsg
  else {}

/-- Wrap a pagination-engine result into a query response. -/
def txPageToResponse (r : TxPageResult) (qh : Hash) : QueryResponse :=
  match r with
  | .page txs next => .success (.transactionsPage txs next) qh
  | .err e => .error e qh

/-- Modelled from the spec: the `operator()(GetAccount)` handler body (not in
the repository snapshot): self/any permission gate, then account lookup,
mapping an absent account to the no-account error. -/
def onGetAccount (l : Ledger) (creator : AccountId) (qh : Hash)
    (account_id : AccountId) : QueryResponse :=
  if hasAnyOrOwn l creator account_id .getAllAccounts .getMyAccount then
    match l.accounts.find? (fun a => a.id == account_id) with
    | none => .error (mkError .noAccount noAccountMsg) qh
    | some acc => .success (.account acc acc.roles) qh
  else .error (mkError .notEnoughPermissions (noPermMsg "get account")) qh

/-- Modelled from the spec: the `operator()(GetBlock)` handler body (not in
the repository snapshot): block-read permission, then height lookup in the
block store, mapping an absent height to the no-block error. -/
def onGetBlock (l : Ledger) (creator : AccountId) (qh : Hash)
    (height : Nat) : QueryResponse :=
  if hasAccountRolePermission l .getBlocks creator then
    match l.blocks.find? (fun b => b.height == height) with
    | none => .error (mkError .noBlock noBlockMsg) qh
    | some b => .success (.block b) qh
  else .error (mkError .notEnoughPermissions (noPermMsg "get block")) qh

/-- Modelled from the spec: the `operator()(GetSignatories)` handler body
(not in the repository snapshot). -/
def onGetSignatories (l : Ledger) (creator : AccountId) (qh : Hash)
    (account_id : AccountId) : QueryResponse :=
  if hasAnyOrOwn l creator account_id .getAllSignatories .getMySignatories then
    let keys := (l.signatories.filter (fun p => p.1 == account_id)).map
      (fun p => p.2)
    if keys.isEmpty then .error (mkError .noSignatories noSignatoriesMsg) qh
    else .success (.signatories keys) qh
  else .error (mkError .notEnoughPermissions (noPermMsg "get signatories")) qh

/-- Modelled from the spec: the `operator()(GetAccountTransactions)` handler
body (not in the repository snapshot): self/any gate, then the pagination
engine over the account's transactions with the account fallback checker. -/
def onGetAccountTransactions (l : Ledger) (creator : AccountId) (qh : Hash)
    (account_id : AccountId) (pagination : TxPaginationMeta) : QueryResponse :=
  if hasAnyOrOwn l creator account_id .getAllAccTxs .getMyAccTxs then
    txPageToResponse
      (executeTransactionsQuery (accTxsCandidates l account_id)
        pagination.firstTxHash pagination.pageSize
        (accountTxsChecker l account_id)) qh
  else .error (mkError .notEnoughPermissions
    (noPermMsg "get account transactions")) qh

/-- Modelled from the spec: the `operator()(GetTransactions)` handler body
(not in the repository snapshot): per spec section 4.4 it is resolved by the
transaction pagination engine over the transactions with the requested
hashes. -/
def onGetTransactions (l : Ledger) (creator : AccountId) (qh : Hash)
    (tx_hashes : List Hash) (pagination : TxPaginationMeta) : QueryResponse :=
  if hasAccountRolePermission l .getAllTxs creator then
    txPageToResponse
      (executeTransactionsQuery (l.txs.filter (fun t => tx_hashes.contains t.hash))
        pagination.firstTxHash pagination.pageSize {}) qh
  else .error (mkError .notEnoughPermissions (noPermMsg "get transactions")) qh

/-- Modelled from the spec: the `operator()(GetAccountAssetTransactions)`
handler body (not in the repository snapshot). -/
def onGetAccountAssetTransactions (l : Ledger) (creator : AccountId)
    (qh : Hash) (account_id : AccountId) (asset_id : AssetId)
    (pagination : TxPaginationMeta) : QueryResponse :=
  if hasAnyOrOwn l creator account_id .getAllAccAstTxs .getMyAccAstTxs then
    txPageToResponse
      (executeTransactionsQuery (accAstTxsCandidates l account_id asset_id)
        pagination.firstTxHash pagination.pageSize
        (accountAssetTxsChecker l account_id asset_id)) qh
  else .error (mkError .notEnoughPermissions
    (noPermMsg "get account asset transactions")) qh

/-- Modelled from the spec: the `operator()(GetAccountAssets)` handler body
(not in the repository snapshot). -/
def onGetAccountAssets (l : Ledger) (creator : AccountId) (qh : Hash)
    (account_id : AccountId) : QueryResponse :=
  if hasAnyOrOwn l creator account_id .getAllAccAst .getMyAccAst then
    .success (.accountAssets
      ((l.balances.filter (fun b => b.1 == account_id)).map
        (fun b => (b.2.1, b.2.2)))) qh
  else .error (mkError .notEnoughPermissions
    (noPermMsg "get account assets")) qh

/-- Modelled from the spec: the `operator()(GetAccountDetail)` handler body
(not in the repository snapshot). -/
def onGetAccountDetail (l : Ledger) (creator : AccountId) (qh : Hash)
    (account_id : AccountId) : QueryResponse :=
  if hasAnyOrOwn l creator account_id .getAllAccDetail .getMyAccDetail then
    match l.accounts.find? (fun a => a.id == account_id) with
    | none => .error (mkError .noAccount noAccountMsg) qh
    | some acc => .success (.accountDetail acc.detail) qh
  else .error (mkError .notEnoughPermissions
    (noPermMsg "get account detail")) qh

/-- Modelled from the spec: the `operator()(GetRoles)` handler body (not in
the repository snapshot): single global permission, no self/any split. -/
def onGetRoles (l : Ledger) (creator : AccountId) (qh : Hash) : QueryResponse :=
  if hasAccountRolePermission l .getRoles creator then
    let role_ids := l.roleDefs.map (fun rd => rd.id)
    if role_ids.isEmpty then .error (mkError .noRoles noRolesMsg) qh
    else .success (.roles role_ids) qh
  else .error (mkError .notEnoughPermissions (noPermMsg "get roles")) qh

/-- Modelled from the spec: the `operator()(GetRolePermissions)` handler
body (not in the repository snapshot). -/
def onGetRolePermissions (l : Ledger) (creator : AccountId) (qh : Hash)
    (role_id : RoleId) : QueryResponse :=
  if hasAccountRolePermission l .getRoles creator then
    match l.roleDefs.find? (fun rd => rd.id == role_id) with
    | none => .error (mkError .noRoles noRolesMsg) qh
    | some rd => .success (.rolePermissions rd.perms) qh
  else .error (mkError .notEnoughPermissions
    (noPermMsg "get role permissions")) qh

/-- Modelled from the spec: the `operator()(GetAssetInfo)` handler body (not
in the repository snapshot). -/
def onGetAssetInfo (l : Ledger) (creator : AccountId) (qh : Hash)
    (asset_id : AssetId) : QueryResponse :=
  if hasAccountRolePermission l .readAssets creator then
    match l.assets.find? (fun a => a.id == asset_id) with
    | none => .error (mkError .noAsset noAssetMsg) qh
    | some a => .success (.assetInfo a) qh
  else .error (mkError .notEnoughPermissions (noPermMsg "get asset info")) qh

/-- Modelled from the spec: the `operator()(GetPendingTransactions)` handler
body (not in the repository snapshot): always scoped to the caller's own
account, no ANY variant. -/
def onGetPendingTransactions (l : Ledger) (creator : AccountId) (qh : Hash) :
    QueryResponse :=
  if hasAccountRolePermission l .getMyPendingTxs creator then
    .success (.pendingTransactions
      (l.pendingTxs.filter (fun t => t.creator == creator))) qh
  else .error (mkError .notEnoughPermissions
    (noPermMsg "get pending transactions")) qh

/-- Modelled from the spec: the `operator()(GetPeers)` handler body (not in
the repository snapshot). -/
def onGetPeers (l : Ledger) (creator : AccountId) (qh : Hash) : QueryResponse :=
  if hasAccountRolePermission l .getPeers creator then
    if l.peers.isEmpty then .error (mkError .noPeers noPeersMsg) qh
    else .success (.peers l.peers) qh
  else .error (mkError .notEnoughPermissions (noPermMsg "get peers")) qh

/-- The exhaustive dispatch over the query union: each variant is routed to
exactly one handler whose result is returned unchanged (the visitor formed
by the thirteen `operator()` overloads). -/
def dispatchQuery (l : Ledger) (creator : AccountId) (qh : Hash) :
    Query → QueryResponse
  | .getAccount a => onGetAccount l creator qh a
  | .getBlock h => onGetBlock l creator qh h
  | .getSignatories a => onGetSignatories l creator qh a
  | .getAccountTransactions a p => onGetAccountTransactions l creator qh a p
  | .getTransactions hs p => onGetTransactions l creator qh hs p
  | .getAccountAssetTransactions a ast p =>
      onGetAccountAssetTransactions l creator qh a ast p
  | .getAccountAssets a => onGetAccountAssets l creator qh a
  | .getAccountDetail a => onGetAccountDetail l creator qh a
  | .getRoles => onGetRoles l creator qh
  | .getRolePermissions r => onGetRolePermissions l creator qh r
  | .getAssetInfo a => onGetAssetInfo l creator qh a
  | .getPendingTransactions => onGetPendingTransactions l creator qh
  | .getPeers => onGetPeers l creator qh

/-- The mutable execution-context fields of the executor
(`creator_id_`, `query_hash_`), `none` while not yet set. -/
structure EngineState where
  creator_id : Option AccountId
  query_hash : Option Hash
deriving DecidableEq

/-- The executor state before any `setCreatorId` / `setQueryHash` call. -/
def initialEngineState : EngineState := ⟨none, none⟩

/-- Set the creator account id on the context (`setCreatorId`). -/
def setCreatorId (s : EngineState) (creator_id : AccountId) : EngineState :=
  { s with creator_id := some creator_id }

/-- Set the correlation hash on the context (`setQueryHash`). -/
def setQueryHash (s : EngineState) (query_hash : Hash) : EngineState :=
  { s with query_hash := some query_hash }

/-- Modelled from the spec: `execute` (the body is not in the repository
snapshot): fails fast with the engine-misuse error when the context is not
fully set; converts an underlying relational/storage failure into the typed
stateful-failed error; otherwise dispatches to the handler of the query's
variant.  The context fields are engine state and are returned unchanged. -/
def execute (l : Ledger) (s : EngineState) (q : Query) :
    QueryResponse × EngineState :=
  match s.creator_id, s.query_hash with
  | some creator, some qh =>
      (if l.broken then .error (mkError .statefulFailed statefulFailedMsg) qh
       else dispatchQuery l creator qh q, s)
  | _, _ =>
      (.error (mkError .engineMisuse engineMisuseMsg) (s.query_hash.getD 0), s)

/-- A ledger with nothing in it and a healthy relational index. -/
def emptyLedger : Ledger := ⟨[], [], [], [], [], [], [], [], [], false⟩

/-- A ledger whose relational index fails (failure injection). -/
def brokenLedger : Ledger := ⟨[], [], [], [], [], [], [], [], [], true⟩

/-- A context with creator `alice` and correlation hash 3. -/
def ctxAlice3 : EngineState := ⟨some "alice", some 3⟩

/-- A context with creator `alice` and correlation hash 7. -/
def ctxAlice7 : EngineState := ⟨some "alice", some 7⟩

/-- A ledger where `alice` can read any account's transactions and `bob`
exists with no transactions. -/
def ledgerAliceBob : Ledger :=
  ⟨[⟨"alice", ["observer"], ""⟩, ⟨"bob", [], ""⟩],
   [⟨"observer", [.getAllAccTxs]⟩], [], [], [], [], [], [], [], false⟩

/-- A sample transaction at height 1, position 0, hash 11. -/
def txA : Tx := ⟨11, "bob", 1, 0, []⟩

/-- A sample transaction at height 2, position 0, hash 12. -/
def txB : Tx := ⟨12, "bob", 2, 0, []⟩

/-- A sample transaction at height 2, position 1, hash 13. -/
def txC : Tx := ⟨13, "bob", 2, 1, []⟩

/-- A three-transaction candidate set, deliberately out of order. -/
def sampleCandidates : List Tx := [txC, txA, txB]

/-- A database with one table `t` holding one row whose key column `k` is
`x` and whose value column `v` is `a`. -/
def dbValA : Db := ⟨[⟨"t", [[("k", "x"), ("v", "a")]]⟩], false⟩

/-- Like `dbValA` but the value column holds `b` instead of `a`. -/
def dbValB : Db := ⟨[⟨"t", [[("k", "x"), ("v", "b")]]⟩], false⟩

/-- A ledger where `alice` may read her own account. -/
def ledgerAliceSelf : Ledger :=
  ⟨[⟨"alice", ["selfReader"], ""⟩], [⟨"selfReader", [.getMyAccount]⟩],
   [], [], [], [], [], [], [], false⟩

/-- The engine state left behind by a set-context/execute pair: context
(`alice`, 7) is set, one query is executed. -/
def stateAfterFirstCall : EngineState :=
  (execute ledgerAliceSelf (setQueryHash (setCreatorId initialEngineState "alice") 7)
    (.getAccount "alice")).2

end IrohaQuery

namespace IrohaQuery

/-! Helper lemmas about the pagination engine. -/

/-- The sorted candidate list is sorted by height, then position. -/
theorem sortTxs_sorted (l : List Tx) : List.Sorted txLe (sortTxs l) :=
  List.sorted_insertionSort txLe l

/-- Sorting preserves membership. -/
theorem mem_sortTxs {t : Tx} {l : List Tx} : t ∈ sortTxs l ↔ t ∈ l :=
  List.mem_insertionSort txLe

/-- If no transaction in the list has the cursor hash, the cursor does not
resolve. -/
theorem dropUntilAfter_eq_none (l : List Tx) (h : Hash)
    (habs : ∀ t ∈ l, t.hash ≠ h) : dropUntilAfter l h = none := by
  induction l with
  | nil => rfl
  | cons t rest ih =>
      unfold dropUntilAfter
      have hne : (t.hash == h) = false :=
        beq_eq_false_iff_ne.mpr (habs t (List.mem_cons_self t rest))
      rw [hne]
      simp only [Bool.false_eq_true, if_false]
      exact ih (fun u hu => habs u (List.mem_cons_of_mem t hu))

/-- The segment after the cursor is a sublist of the candidate list. -/
theorem dropUntilAfter_sublist (l : List Tx) (h : Hash) (rest : List Tx)
    (hd : dropUntilAfter l h = some rest) : List.Sublist rest l := by
  induction l with
  | nil => simp [dropUntilAfter] at hd
  | cons t ts ih =>
      unfold dropUntilAfter at hd
      by_cases hb : (t.hash == h) = true
      · rw [hb] at hd
        simp only [if_true, Option.some.injEq] at hd
        subst hd
        exact List.sublist_cons_self t ts
      · rw [Bool.not_eq_true] at hb
        rw [hb] at hd
        simp only [Bool.false_eq_true, if_false] at hd
        exact (ih hd).cons t

/-- What `mkPage` returns: the first `pageSize` transactions of the
remaining candidates, the next-cursor exactly when more remain. -/
theorem mkPage_spec (rest : List Tx) (pageSize : Nat) (page : List Tx)
    (next : Option Hash) (hs : List.Sorted txLe rest)
    (hmk : mkPage rest pageSize = .page page next) :
    page = rest.take pageSize ∧ page.length ≤ pageSize ∧
      List.Sorted txLe page ∧
      (pageSize < rest.length → 0 < pageSize →
        ∃ tl, page.getLast? = some tl ∧ next = some tl.hash) ∧
      (rest.length ≤ pageSize → next = none) := by
  unfold mkPage at hmk
  injection hmk with hpage hnext
  subst hpage
  refine ⟨rfl, ?_, ?_, ?_, ?_⟩
  · rw [List.length_take]
    exact Nat.min_le_left _ _
  · exact List.Pairwise.sublist (List.take_sublist pageSize rest) hs
  · intro hlt hpos
    have hlen : (rest.take pageSize).length = pageSize := by
      rw [List.length_take]
      exact Nat.min_eq_left (Nat.le_of_lt hlt)
    have hne : rest.take pageSize ≠ [] := by
      intro hnil
      rw [hnil] at hlen
      simp at hlen
      omega
    have hsome : ((rest.take pageSize).getLast?).isSome :=
      List.getLast?_isSome.mpr hne
    rcases Option.isSome_iff_exists.mp hsome with ⟨tl, htl⟩
    refine ⟨tl, htl, ?_⟩
    rw [← hnext, if_pos hlt, htl]
    rfl
  · intro hle
    rw [← hnext, if_neg (Nat.not_lt.mpr hle)]

/-- The pagination engine never produces a permission-denial error. -/
theorem txPage_not_permission_denied (cands : List Tx) (cur : Option Hash)
    (ps : Nat) (chk : QueryFallbackCheckResult) (qh : Hash) :
    (txPageToResponse (executeTransactionsQuery cands cur ps chk) qh).isPermissionDenied
      = false := by
  unfold executeTransactionsQuery
  cases cur with
  | some h =>
      cases hdrop : dropUntilAfter (sortTxs cands) h with
      | none => simp only [hdrop]; rfl
      | some rest => simp only [hdrop]; rfl
  | none =>
      by_cases hc : (((sortTxs cands).take ps).isEmpty && chk.contains_error) = true
      · rw [if_pos hc]
        show (errorTypeOfCode chk.error_code == ErrorType.notEnoughPermissions) = false
        unfold errorTypeOfCode
        by_cases h5 : chk.error_code = 5
        · rw [if_pos h5]; decide
        · rw [if_neg h5]
          by_cases h6 : chk.error_code = 6
          · rw [if_pos h6]; decide
          · rw [if_neg h6]; decide
      · rw [if_neg hc]
        rfl

/-- Unfolding equation of the pagination engine for a supplied cursor. -/
theorem executeTransactionsQuery_some_eq (candidates : List Tx) (h : Hash)
    (pageSize : Nat) (chk : QueryFallbackCheckResult) :
    executeTransactionsQuery candidates (some h) pageSize chk
      = match dropUntilAfter (sortTxs candidates) h with
        | none => .err (mkError .invalidPagination invalidPaginationMsg)
        | some rest => mkPage rest pageSize := rfl

/-- Unfolding equation of the pagination engine with no cursor. -/
theorem executeTransactionsQuery_none_eq (candidates : List Tx)
    (pageSize : Nat) (chk : QueryFallbackCheckResult) :
    executeTransactionsQuery candidates none pageSize chk
      = if (((sortTxs candidates).take pageSize).isEmpty
            && chk.contains_error) = true
        then .err ⟨errorTypeOfCode chk.error_code, chk.error_message,
                   chk.error_code⟩
        else mkPage (sortTxs candidates) pageSize := rfl

/-- C1: For every query value, `execute` returns exactly one of a typed
success response or a typed error response — never both, never neither —
and an internal relational-index/block-store failure is converted to the
typed stateful-failed `ErrorResponse` before crossing the engine boundary,
so no raw storage exception or error code escapes from `execute`. -/
theorem execute_total_and_typed (l : Ledger) (s : EngineState) (q : Query) :
    ((∃ r qh, (execute l s q).1 = QueryResponse.success r qh) ↔
      ¬ ∃ e qh, (execute l s q).1 = QueryResponse.error e qh) ∧
    (∀ creator qh, l.broken = true → s.creator_id = some creator →
      s.query_hash = some qh →
      (execute l s q).1
        = QueryResponse.error (mkError .statefulFailed statefulFailedMsg) qh) := by
  constructor
  · rcases hE : (execute l s q).1 with ⟨r, qh⟩ | ⟨e, qh⟩ <;> simp
  · intro creator qh hb hc hh
    unfold execute
    rw [hc, hh]
    simp [hb]

/-- Witness for C1: on a concrete broken ledger with the context set, the
storage failure surfaces as the typed stateful-failed error response. -/
theorem execute_total_and_typed_witness :
    (execute brokenLedger ctxAlice3 .getPeers).1
      = QueryResponse.error (mkError .statefulFailed statefulFailedMsg) 3 :=
  (execute_total_and_typed brokenLedger ctxAlice3 .getPeers).2 "alice" 3 rfl rfl rfl

/-- C7: If `execute` is invoked before both `creator_id` and `query_hash`
have been set, it fails fast with the engine-misuse error, which is distinct
from every query-specific error type. -/
theorem execute_engine_misuse (l : Ledger) (s : EngineState) (q : Query)
    (h : s.creator_id = none ∨ s.query_hash = none) :
    (execute l s q).1
      = QueryResponse.error (mkError .engineMisuse engineMisuseMsg)
          (s.query_hash.getD 0) ∧
    (mkError .engineMisuse engineMisuseMsg).errorType ∉
      [ErrorType.notEnoughPermissions, .noAccount, .noAsset, .noRoles,
       .noSignatories, .noBlock, .noPeers, .invalidPagination,
       .statefulFailed] := by
  constructor
  · unfold execute
    rcases h with h | h
    · rw [h]
    · rw [h]
      cases hc : s.creator_id <;> rfl
  · decide

/-- Witness for C7: before any `setCreatorId`/`setQueryHash` call, `execute`
returns the engine-misuse error. -/
theorem execute_engine_misuse_witness :
    (execute emptyLedger initialEngineState .getRoles).1
      = QueryResponse.error (mkError .engineMisuse engineMisuseMsg) 0 :=
  (execute_engine_misuse emptyLedger initialEngineState .getRoles (Or.inl rfl)).1

/-- C9 (amended): the mutable context fields persist across invocations:
`execute` leaves `creator_id`/`query_hash` unchanged, so a later `execute`
without a fresh set-context pair observes the most recently set context —
including the one set for an earlier call. -/
theorem context_persists (l : Ledger) (s : EngineState) (a : AccountId)
    (h : Hash) (q1 q2 : Query) :
    (execute l (setQueryHash (setCreatorId s a) h) q1).2
        = setQueryHash (setCreatorId s a) h ∧
    ((execute l (setQueryHash (setCreatorId s a) h) q1).2).creator_id = some a ∧
    ((execute l (setQueryHash (setCreatorId s a) h) q1).2).query_hash = some h ∧
    (execute l ((execute l (setQueryHash (setCreatorId s a) h) q1).2) q2).1
        = (execute l (setQueryHash (setCreatorId s a) h) q2).1 := by
  have h2 : ∀ q : Query, (execute l (setQueryHash (setCreatorId s a) h) q).2
      = setQueryHash (setCreatorId s a) h := by
    intro q; unfold execute; split <;> rfl
  refine ⟨h2 q1, ?_, ?_, by rw [h2 q1]⟩
  · rw [h2 q1]; rfl
  · rw [h2 q1]; rfl

/-- Counterexample to C9 as stated: after a set-context/execute pair, a
later `execute` without fresh context still observes the earlier call's
context (it succeeds with creator `alice` and echoes hash 7), whereas an
executor whose context was never set fails with the engine-misuse error —
so context state does leak from one invocation to the next. -/
theorem context_leak_counterexample :
    stateAfterFirstCall = EngineState.mk (some "alice") (some 7) ∧
    (execute ledgerAliceSelf stateAfterFirstCall (.getAccount "alice")).1
      = QueryResponse.success
          (.account ⟨"alice", ["selfReader"], ""⟩ ["selfReader"]) 7 ∧
    (execute ledgerAliceSelf initialEngineState (.getAccount "alice")).1
      = QueryResponse.error (mkError .engineMisuse engineMisuseMsg) 0 := by
  refine ⟨rfl, rfl, rfl⟩

/-- C10: `execute` is deterministic over unchanged ledger state: it does not
mutate the engine state, and repeating the same query with the same context
against the same ledger yields an equal response. -/
theorem execute_idempotent (l : Ledger) (s : EngineState) (q : Query) :
    (execute l s q).2 = s ∧
    (execute l ((execute l s q).2) q).1 = (execute l s q).1 := by
  have h2 : (execute l s q).2 = s := by
    unfold execute; split <;> rfl
  exact ⟨h2, by rw [h2]⟩

/-- C3: For every paginated transaction query executed with a starting
cursor hash that does not resolve to any transaction in the candidate set,
the result is the invalid-pagination error — regardless of whether the
candidate set is empty or not — and never a page (all three paginated query
kinds delegate to `executeTransactionsQuery`). -/
theorem invalid_pagination_hash (candidates : List Tx) (h : Hash)
    (pageSize : Nat) (qry_checker : QueryFallbackCheckResult)
    (habs : ∀ t ∈ candidates, t.hash ≠ h) :
    executeTransactionsQuery candidates (some h) pageSize qry_checker
        = .err (mkError .invalidPagination invalidPaginationMsg) ∧
    (∀ txs next,
      executeTransactionsQuery candidates (some h) pageSize qry_checker
        ≠ .page txs next) := by
  have hd : dropUntilAfter (sortTxs candidates) h = none :=
    dropUntilAfter_eq_none _ _ (fun t ht => habs t (mem_sortTxs.mp ht))
  have he : executeTransactionsQuery candidates (some h) pageSize qry_checker
      = .err (mkError .invalidPagination invalidPaginationMsg) := by
    rw [executeTransactionsQuery_some_eq, hd]
  refine ⟨he, fun txs next hcontra => ?_⟩
  rw [he] at hcontra
  exact TxPageResult.noConfusion hcontra

/-- Witness for C3: a concrete candidate set, a cursor hash resolving to no
candidate, and the resulting invalid-pagination error. -/
theorem invalid_pagination_hash_witness :
    (∀ t ∈ sampleCandidates, t.hash ≠ 99) ∧
    executeTransactionsQuery sampleCandidates (some 99) 5 {}
      = .err (mkError .invalidPagination invalidPaginationMsg) :=
  ⟨by decide, (invalid_pagination_hash sampleCandidates 99 5 {} (by decide)).1⟩

/-- C4: For a paginated transaction query executed with no cursor that
retrieves zero transactions, the query-kind-specific fallback checker
distinguishes the two cases — a non-existent target account (or asset)
yields the corresponding no-such-account / no-such-asset error, an existing
target with no matching transactions yields an empty success page — and the
fallback is consulted only when no cursor was supplied. -/
theorem empty_result_fallback (l : Ledger) (s : EngineState)
    (creator : AccountId) (qh : Hash) (target : AccountId)
    (asset_id : AssetId) (ps : Nat) (hc : s.creator_id = some creator)
    (hh : s.query_hash = some qh) (hb : l.broken = false) :
    (accTxsCandidates l target = [] →
      hasAnyOrOwn l creator target .getAllAccTxs .getMyAccTxs = true →
      l.hasAccount target = false →
      (execute l s (.getAccountTransactions target ⟨ps, none⟩)).1
        = QueryResponse.error ⟨.noAccount, noAccountMsg, 5⟩ qh) ∧
    (accTxsCandidates l target = [] →
      hasAnyOrOwn l creator target .getAllAccTxs .getMyAccTxs = true →
      l.hasAccount target = true →
      (execute l s (.getAccountTransactions target ⟨ps, none⟩)).1
        = QueryResponse.success (.transactionsPage [] none) qh) ∧
    (accAstTxsCandidates l target asset_id = [] →
      hasAnyOrOwn l creator target .getAllAccAstTxs .getMyAccAstTxs = true →
      l.hasAccount target = true → l.hasAsset asset_id = false →
      (execute l s (.getAccountAssetTransactions target asset_id ⟨ps, none⟩)).1
        = QueryResponse.error ⟨.noAsset, noAssetMsg, 6⟩ qh) ∧
    (∀ cands hsh n c1 c2,
      executeTransactionsQuery cands (some hsh) n c1
        = executeTransactionsQuery cands (some hsh) n c2) := by
  refine ⟨?_, ?_, ?_, fun cands hsh n c1 c2 => rfl⟩
  · intro h0 hg ha
    have hchk : accountTxsChecker l target
        = QueryFallbackCheckResult.withError 5 noAccountMsg := by
      simp [accountTxsChecker, ha]
    have heng : executeTransactionsQuery (accTxsCandidates l target) none ps
        (accountTxsChecker l target)
        = .err ⟨.noAccount, noAccountMsg, 5⟩ := by
      rw [executeTransactionsQuery_none_eq, h0, hchk]
      simp [sortTxs, QueryFallbackCheckResult.withError, errorTypeOfCode]
    unfold execute
    rw [hc, hh]
    simp [hb, dispatchQuery, onGetAccountTransactions, hg, heng,
      txPageToResponse]
  · intro h0 hg ha
    have hchk : accountTxsChecker l target = {} := by
      simp [accountTxsChecker, ha]
    have heng : executeTransactionsQuery (accTxsCandidates l target) none ps
        (accountTxsChecker l target) = .page [] none := by
      rw [executeTransactionsQuery_none_eq, h0, hchk]
      simp [sortTxs, mkPage]
    unfold execute
    rw [hc, hh]
    simp [hb, dispatchQuery, onGetAccountTransactions, hg, heng,
      txPageToResponse]
  · intro h0 hg ha hast
    have hchk : accountAssetTxsChecker l target asset_id
        = QueryFallbackCheckResult.withError 6 noAssetMsg := by
      simp [accountAssetTxsChecker, ha, hast]
    have heng : executeTransactionsQuery (accAstTxsCandidates l target asset_id)
        none ps (accountAssetTxsChecker l target asset_id)
        = .err ⟨.noAsset, noAssetMsg, 6⟩ := by
      rw [executeTransactionsQuery_none_eq, h0, hchk]
      simp [sortTxs, QueryFallbackCheckResult.withError, errorTypeOfCode]
    unfold execute
    rw [hc, hh]
    simp [hb, dispatchQuery, onGetAccountAssetTransactions, hg, heng,
      txPageToResponse]

/-- Witness for C4: querying transactions of an existing account with no
transactions and no cursor yields an empty success page. -/
theorem empty_result_fallback_witness :
    (execute ledgerAliceBob ctxAlice7 (.getAccountTransactions "bob" ⟨5, none⟩)).1
      = QueryResponse.success (.transactionsPage [] none) 7 :=
  ((empty_result_fallback ledgerAliceBob ctxAlice7 "alice" 7 "bob" "coin" 5
    rfl rfl rfl).2.1) (by decide) (by decide) (by decide)

/-- C5: Every page returned by the pagination engine holds at most
`pageSize` transactions taken in deterministic order (height ascending,
then position ascending) from the segment starting strictly after the
cursor (or at the first candidate when no cursor is supplied); when more
candidates remain past the page the next-page cursor is the hash of the
last returned transaction, and when the candidate set is exhausted no next
cursor is set. -/
theorem paginated_page_spec (candidates : List Tx) (firstTxHash : Option Hash)
    (pageSize : Nat) (qry_checker : QueryFallbackCheckResult) (page : List Tx)
    (next : Option Hash)
    (hres : executeTransactionsQuery candidates firstTxHash pageSize qry_checker
      = .page page next) :
    ∃ rest, startSegment candidates firstTxHash = some rest ∧
      page = rest.take pageSize ∧ page.length ≤ pageSize ∧
      List.Sorted txLe page ∧
      (pageSize < rest.length → 0 < pageSize →
        ∃ tl, page.getLast? = some tl ∧ next = some tl.hash) ∧
      (rest.length ≤ pageSize → next = none) := by
  cases firstTxHash with
  | some h =>
      rw [executeTransactionsQuery_some_eq] at hres
      cases hdrop : dropUntilAfter (sortTxs candidates) h with
      | none => rw [hdrop] at hres; simp at hres
      | some rest =>
          rw [hdrop] at hres
          have hs : List.Sorted txLe rest :=
            List.Pairwise.sublist (dropUntilAfter_sublist _ _ _ hdrop)
              (sortTxs_sorted candidates)
          have hspec := mkPage_spec rest pageSize page next hs hres
          exact ⟨rest, hdrop, hspec.1,
            hspec.2.1, hspec.2.2.1, hspec.2.2.2.1, hspec.2.2.2.2⟩
  | none =>
      rw [executeTransactionsQuery_none_eq] at hres
      by_cases hcond : (((sortTxs candidates).take pageSize).isEmpty
          && qry_checker.contains_error) = true
      · rw [if_pos hcond] at hres; simp at hres
      · rw [if_neg hcond] at hres
        have hspec := mkPage_spec (sortTxs candidates) pageSize page next
          (sortTxs_sorted candidates) hres
        exact ⟨sortTxs candidates, rfl, hspec.1, hspec.2.1, hspec.2.2.1,
          hspec.2.2.2.1, hspec.2.2.2.2⟩

/-- Witness for C5: a concrete three-transaction candidate set with page
size 2: the page holds the two lowest transactions in scan order and the
next cursor is the hash of the last returned transaction. -/
theorem paginated_page_spec_witness :
    ∃ rest, startSegment sampleCandidates none = some rest ∧
      [txA, txB] = rest.take 2 ∧ ([txA, txB] : List Tx).length ≤ 2 ∧
      List.Sorted txLe [txA, txB] ∧
      (2 < rest.length → 0 < 2 →
        ∃ tl, ([txA, txB] : List Tx).getLast? = some tl ∧
          some txB.hash = some tl.hash) ∧
      (rest.length ≤ 2 → some txB.hash = none) :=
  paginated_page_spec sampleCandidates none 2 {} [txA, txB] (some txB.hash)
    (by decide)

/-- C2: For every query kind with a self/any permission pair (GetAccount,
GetAccountTransactions, GetAccountAssets, GetAccountAssetTransactions,
GetAccountDetail, GetSignatories), the permission check grants access iff
the caller holds the ANY-scope permission, or the target account equals the
caller and the caller holds the OWN-scope permission; with only the OWN
permission access succeeds exactly when target equals caller, and with the
ANY permission for every target. -/
theorem selfAny_permission_correct (l : Ledger) (s : EngineState)
    (creator : AccountId) (qh : Hash) (target : AccountId)
    (asset_id : AssetId) (ps : Nat) (cur : Option Hash)
    (hc : s.creator_id = some creator) (hh : s.query_hash = some qh)
    (hb : l.broken = false) :
    (∀ anyPerm ownPerm t, hasAnyOrOwn l creator t anyPerm ownPerm = true ↔
      (hasAccountRolePermission l anyPerm creator = true ∨
        (t = creator ∧ hasAccountRolePermission l ownPerm creator = true))) ∧
    (∀ anyPerm ownPerm t,
      hasAccountRolePermission l anyPerm creator = false →
      (hasAnyOrOwn l creator t anyPerm ownPerm = true ↔
        (t = creator ∧ hasAccountRolePermission l ownPerm creator = true))) ∧
    (∀ anyPerm ownPerm t,
      hasAccountRolePermission l anyPerm creator = true →
      hasAnyOrOwn l creator t anyPerm ownPerm = true) ∧
    ((execute l s (.getAccount target)).1.isPermissionDenied = true ↔
      hasAnyOrOwn l creator target .getAllAccounts .getMyAccount = false) ∧
    ((execute l s
        (.getAccountTransactions target ⟨ps, cur⟩)).1.isPermissionDenied = true ↔
      hasAnyOrOwn l creator target .getAllAccTxs .getMyAccTxs = false) ∧
    ((execute l s (.getAccountAssets target)).1.isPermissionDenied = true ↔
      hasAnyOrOwn l creator target .getAllAccAst .getMyAccAst = false) ∧
    ((execute l s (.getAccountAssetTransactions target asset_id
        ⟨ps, cur⟩)).1.isPermissionDenied = true ↔
      hasAnyOrOwn l creator target .getAllAccAstTxs .getMyAccAstTxs = false) ∧
    ((execute l s (.getAccountDetail target)).1.isPermissionDenied = true ↔
      hasAnyOrOwn l creator target .getAllAccDetail .getMyAccDetail = false) ∧
    ((execute l s (.getSignatories target)).1.isPermissionDenied = true ↔
      hasAnyOrOwn l creator target .getAllSignatories .getMySignatories
        = false) := by
  have hgate : ∀ anyPerm ownPerm t,
      hasAnyOrOwn l creator t anyPerm ownPerm = true ↔
      (hasAccountRolePermission l anyPerm creator = true ∨
        (t = creator ∧ hasAccountRolePermission l ownPerm creator = true)) := by
    intro anyPerm ownPerm t
    unfold hasAnyOrOwn
    simp [Bool.or_eq_true, Bool.and_eq_true, beq_iff_eq]
  have hred : ∀ q : Query, (execute l s q).1 = dispatchQuery l creator qh q := by
    intro q; unfold execute; rw [hc, hh]; simp [hb]
  refine ⟨hgate, ?_, ?_, ?_, ?_, ?_, ?_, ?_, ?_⟩
  · intro anyPerm ownPerm t hfalse
    rw [hgate anyPerm ownPerm t]
    simp [hfalse]
  · intro anyPerm ownPerm t htrue
    rw [hgate anyPerm ownPerm t]
    exact Or.inl htrue
  · rw [hred]
    show (onGetAccount l creator qh target).isPermissionDenied = true ↔ _
    cases hg : hasAnyOrOwn l creator target .getAllAccounts .getMyAccount
    · simp [onGetAccount, hg, QueryResponse.isPermissionDenied, mkError]
    · simp only [onGetAccount, hg, if_true]
      cases hf : l.accounts.find? (fun a => a.id == target) <;>
        simp [hf, QueryResponse.isPermissionDenied, mkError]
  · rw [hred]
    show (onGetAccountTransactions l creator qh target ⟨ps, cur⟩).isPermissionDenied
        = true ↔ _
    cases hg : hasAnyOrOwn l creator target .getAllAccTxs .getMyAccTxs
    · simp [onGetAccountTransactions, hg, QueryResponse.isPermissionDenied,
        mkError]
    · simp [onGetAccountTransactions, hg, txPage_not_permission_denied]
  · rw [hred]
    show (onGetAccountAssets l creator qh target).isPermissionDenied = true ↔ _
    cases hg : hasAnyOrOwn l creator target .getAllAccAst .getMyAccAst
    · simp [onGetAccountAssets, hg, QueryResponse.isPermissionDenied, mkError]
    · simp [onGetAccountAssets, hg, QueryResponse.isPermissionDenied]
  · rw [hred]
    show (onGetAccountAssetTransactions l creator qh target asset_id
        ⟨ps, cur⟩).isPermissionDenied = true ↔ _
    cases hg : hasAnyOrOwn l creator target .getAllAccAstTxs .getMyAccAstTxs
    · simp [onGetAccountAssetTransactions, hg,
        QueryResponse.isPermissionDenied, mkError]
    · simp [onGetAccountAssetTransactions, hg, txPage_not_permission_denied]
  · rw [hred]
    show (onGetAccountDetail l creator qh target).isPermissionDenied = true ↔ _
    cases hg : hasAnyOrOwn l creator target .getAllAccDetail .getMyAccDetail
    · simp [onGetAccountDetail, hg, QueryResponse.isPermissionDenied, mkError]
    · simp only [onGetAccountDetail, hg, if_true]
      cases hf : l.accounts.find? (fun a => a.id == target) <;>
        simp [hf, QueryResponse.isPermissionDenied, mkError]
  · rw [hred]
    show (onGetSignatories l creator qh target).isPermissionDenied = true ↔ _
    cases hg : hasAnyOrOwn l creator target .getAllSignatories .getMySignatories
    · simp [onGetSignatories, hg, QueryResponse.isPermissionDenied, mkError]
    · simp only [onGetSignatories, hg, if_true]
      split <;> simp [QueryResponse.isPermissionDenied, mkError]

/-- Witness for C2: a caller holding only the OWN-scope account-read
permission is denied for another account's `GetAccount` and granted for her
own. -/
theorem selfAny_permission_correct_witness :
    (execute ledgerAliceSelf ctxAlice7 (.getAccount "bob")).1.isPermissionDenied
      = true ∧
    (execute ledgerAliceSelf ctxAlice7 (.getAccount "alice")).1.isPermissionDenied
      = false := by
  have hbob := (selfAny_permission_correct ledgerAliceSelf ctxAlice7 "alice" 7
    "bob" "x" 0 none rfl rfl rfl).2.2.2.1
  have halice := (selfAny_permission_correct ledgerAliceSelf ctxAlice7 "alice" 7
    "alice" "x" 0 none rfl rfl rfl).2.2.2.1
  constructor
  · exact hbob.mpr (by decide)
  · cases hA : (execute ledgerAliceSelf ctxAlice7
        (.getAccount "alice")).1.isPermissionDenied
    · rfl
    · exact absurd (halice.mp hA) (by decide)

/-- Counterexample to C6 as stated: the query union of the header has
thirteen variants (thirteen forward-declared query classes and thirteen
`operator()` overloads), not twelve: the tag list is duplicate-free, every
variant's tag occurs in it, and its length is 13, not 12. -/
theorem query_thirteen_variants :
    QueryTag.all.Nodup ∧ QueryTag.all.length = 13 ∧
    Query.samples.map Query.tag = QueryTag.all ∧
    ¬ QueryTag.all.length = 12 := by decide

/-- C6 (amended): `Query` is a closed tagged union of thirteen variants and
the dispatch of `execute` is an exhaustive match over the variant: every
variant is routed to exactly one handler whose result is returned
unchanged, and no variant falls through as a silent no-op. -/
theorem dispatch_exhaustive (l : Ledger) (creator : AccountId) (qh : Hash) :
    (∀ t : QueryTag, t ∈ QueryTag.all) ∧ QueryTag.all.length = 13 ∧
    (∀ a, dispatchQuery l creator qh (.getAccount a)
      = onGetAccount l creator qh a) ∧
    (∀ n, dispatchQuery l creator qh (.getBlock n)
      = onGetBlock l creator qh n) ∧
    (∀ a, dispatchQuery l creator qh (.getSignatories a)
      = onGetSignatories l creator qh a) ∧
    (∀ a p, dispatchQuery l creator qh (.getAccountTransactions a p)
      = onGetAccountTransactions l creator qh a p) ∧
    (∀ hs p, dispatchQuery l creator qh (.getTransactions hs p)
      = onGetTransactions l creator qh hs p) ∧
    (∀ a b p, dispatchQuery l creator qh (.getAccountAssetTransactions a b p)
      = onGetAccountAssetTransactions l creator qh a b p) ∧
    (∀ a, dispatchQuery l creator qh (.getAccountAssets a)
      = onGetAccountAssets l creator qh a) ∧
    (∀ a, dispatchQuery l creator qh (.getAccountDetail a)
      = onGetAccountDetail l creator qh a) ∧
    (dispatchQuery l creator qh .getRoles = onGetRoles l creator qh) ∧
    (∀ r, dispatchQuery l creator qh (.getRolePermissions r)
      = onGetRolePermissions l creator qh r) ∧
    (∀ a, dispatchQuery l creator qh (.getAssetInfo a)
      = onGetAssetInfo l creator qh a) ∧
    (dispatchQuery l creator qh .getPendingTransactions
      = onGetPendingTransactions l creator qh) ∧
    (dispatchQuery l creator qh .getPeers = onGetPeers l creator qh) :=
  ⟨fun t => by cases t <;> decide, rfl, fun a => rfl, fun n => rfl,
    fun a => rfl, fun a p => rfl, fun hs p => rfl, fun a b p => rfl,
    fun a => rfl, fun a => rfl, rfl, fun r => rfl, fun a => rfl, rfl, rfl⟩

/-- Counterexample to C8 as stated: the header's `existsInDb` returns a
`bool` presence flag, not the associated value — two databases whose keyed
rows hold different associated values produce identical `existsInDb`
results, so the lookup result cannot be the associated value. -/
theorem existsInDb_returns_presence_not_value :
    existsInDb dbValA "t" "k" "v" "x" = existsInDb dbValB "t" "k" "v" "x" ∧
    existsInDb dbValA "t" "k" "v" "x" = .ok true ∧
    dbLookupValue dbValA "t" "k" "v" "x" = some "a" ∧
    dbLookupValue dbValB "t" "k" "v" "x" = some "b" ∧
    (some "a" : Option String) ≠ some "b" :=
  ⟨rfl, rfl, rfl, rfl, by decide⟩

/-- C8 (amended): for every lookup key, `existsInDb` performs a single-row
lookup that returns `true` exactly when a row with that key exists in the
addressed table and `false` otherwise; absence of the row (or of the table)
is reported as `false`, not as an error outcome — the error outcome arises
only when the underlying check query itself fails. -/
theorem existsInDb_presence (db : Db)
    (table_name key_name value_name value : String) (hb : db.broken = false) :
    (∀ tab, db.tables.find? (fun t => t.name == table_name) = some tab →
      (existsInDb db table_name key_name value_name value = .ok true ↔
        ∃ row ∈ tab.rows, getCol row key_name = some value)) ∧
    (∀ tab, db.tables.find? (fun t => t.name == table_name) = some tab →
      (∀ row ∈ tab.rows, getCol row key_name ≠ some value) →
      existsInDb db table_name key_name value_name value = .ok false) ∧
    (db.tables.find? (fun t => t.name == table_name) = none →
      existsInDb db table_name key_name value_name value = .ok false) := by
  unfold existsInDb
  rw [hb]
  simp only [Bool.false_eq_true, if_false]
  refine ⟨?_, ?_, ?_⟩
  · intro tab htab
    rw [htab]
    simp [List.any_eq_true, beq_iff_eq]
  · intro tab htab habs
    rw [htab]
    have hany : tab.rows.any (fun r => getCol r key_name == some value)
        = false := by
      rw [Bool.eq_false_iff]
      intro hcontra
      rcases List.any_eq_true.mp hcontra with ⟨row, hrow, hp⟩
      exact habs row hrow (by rwa [beq_iff_eq] at hp)
    simp [hany]
  · intro hnone
    rw [hnone]

/-- Witness for C8 (amended): on a healthy concrete database, looking up an
absent key yields `.ok false` — absence, not an error. -/
theorem existsInDb_presence_witness :
    existsInDb dbValA "t" "k" "v" "nokey" = .ok false :=
  (existsInDb_presence dbValA "t" "k" "v" "nokey" rfl).2.1
    ⟨"t", [[("k", "x"), ("v", "a")]]⟩ rfl (by decide)

end IrohaQuery
